import Mathlib

/-!
Verification of the task-allocation and review-workflow engine of the
Photos_Pet_Amazon annotation tool.  The repository ships the React frontend
(AnnotationPage.jsx — the category-scoped queue page, ImageAnnotationPage.jsx
— the image-scoped editor, and the admin dashboard) while the FastAPI
backend is not part of the source tree; backend operations are therefore
modelled from the specification where needed, and every such definition
carries a doc comment starting with "Modelled from the spec:".  All other
definitions are direct shallow embeddings of the JavaScript source.
-/

namespace PhotosPet

/-- Review status of an annotation record.  `pending` stands for the JSON
null value used by the API for a record that has not been reviewed yet. -/
inductive ReviewStatus
| pending
| approved
| reworkRequested
| reworkCompleted
deriving DecidableEq, Repr

/-- Work status of an annotation record (the `status` field). -/
inductive AnnStatus
| inProgress
| completed
| skipped
deriving DecidableEq, Repr

/-- Error taxonomy of the engine (spec section 7). -/
inductive AppError
| validationFailed (missing : List String)
| conflictFailed
| stateFailed
| authorizationFailed
| notFound
deriving DecidableEq, Repr

/-- An annotation record as seen by the annotator pages: content plus
work status and elapsed-time telemetry. -/
structure AnnRecord where
  selected_option_ids : List Nat
  is_duplicate : Option Bool
  status : AnnStatus
  time_spent_seconds : Nat
deriving DecidableEq, Repr

/- ── Category-scoped page (AnnotationPage.jsx, src/unnamed/part_005) ── -/

/-- `toggleOption` from AnnotationPage.jsx (part_005 lines 86-90):
`prev.includes(optionId) ? prev.filter((id) => id !== optionId) : [...prev, optionId]`. -/
def toggleOption (prev : List Nat) (optionId : Nat) : List Nat :=
  if prev.contains optionId then prev.filter (fun id => id != optionId)
  else prev ++ [optionId]

/-- The component state of AnnotationPage relevant to save and skip:
the loaded task with the image id, the queue size and the current
authoritative annotation record for resume (part_005 lines 17-47). -/
structure TaskView where
  image_id : Nat
  total_images : Nat
  current_ann : Option AnnRecord
deriving DecidableEq, Repr

/-- Body of the PUT annotate request issued by `saveAnnotation`
(part_005 lines 96-102). -/
structure SaveReq where
  selected_option_ids : List Nat
  is_duplicate : Option Bool
  status : AnnStatus
  time_spent_seconds : Nat
deriving DecidableEq, Repr

/-- The request body built by `saveAnnotation(status)` from the component
state (part_005 lines 92-111). -/
def saveAnnReq (sel : List Nat) (dup : Option Bool) (st : AnnStatus) (elapsed : Nat) : SaveReq :=
  { selected_option_ids := sel, is_duplicate := dup, status := st,
    time_spent_seconds := elapsed }

/-- The list of annotate writes issued by `handleSkip` (part_005 lines
144-151): `saveAnnotation('skipped')` is called only when the current
annotation is not already completed. -/
def handleSkipWrites (task : TaskView) (sel : List Nat) (dup : Option Bool)
    (elapsed : Nat) : List SaveReq :=
  if task.current_ann.map (fun a => a.status) = some AnnStatus.completed then []
  else [saveAnnReq sel dup AnnStatus.skipped elapsed]

/-- Modelled from the spec: the annotate endpoint itself is backend code
absent from src.  Per section 4.3, Submit overwrites the record content:
selections, the duplicate flag, the work status and the elapsed time are
written onto the record. -/
def applySaveReq (_r : AnnRecord) (w : SaveReq) : AnnRecord :=
  { selected_option_ids := w.selected_option_ids, is_duplicate := w.is_duplicate,
    status := w.status, time_spent_seconds := w.time_spent_seconds }

/-- Applying a list of annotate writes to a record in order. -/
def applyWrites (r : AnnRecord) (ws : List SaveReq) : AnnRecord :=
  ws.foldl applySaveReq r

/-- The outcome of one task load in AnnotationPage. -/
inductive LoadResult
| taskLoaded
| allDone
| errorShown (msg : String)
deriving DecidableEq, Repr

/-- Whether `sub` occurs contiguously in the character list, scanning
left to right. -/
def jsIncludesAux (sub : List Char) : List Char → Bool
| [] => sub.isEmpty
| c :: t => sub.isPrefixOf (c :: t) || jsIncludesAux sub t

/-- JavaScript `String.prototype.includes`. -/
def jsIncludes (s sub : String) : Bool :=
  jsIncludesAux sub.toList s.toList

/-- The error discrimination of `loadTask` (part_005 lines 48-59): a 404
whose detail mentions "all completed" or "No images" is treated as queue
exhaustion (all done), any other failure is shown as an error. -/
def loadTaskResult (status : Nat) (detail : String) : LoadResult :=
  if status == 404 then
    if jsIncludes detail "all completed" || jsIncludes detail "No images" then
      LoadResult.allDone
    else LoadResult.errorShown (if detail == "" then "No more images." else detail)
  else LoadResult.errorShown (if detail == "" then "Failed to load task" else detail)

/-- The disabled condition of the Save and Next button (part_005 lines
430-433): disabled while saving or while no option is selected. -/
def saveNextDisabled (saving : Bool) (selectedOptions : List Nat) : Bool :=
  saving || selectedOptions.isEmpty

/- ── Backend review operation (modelled from the spec) ── -/

/-- Modelled from the spec: the review approve endpoint
(PUT admin review approve) is backend code absent from src.  Section 4.3:
Approve is allowed only when review_status is null (pending) or
rework_completed; re-approving an already approved record raises
StateError.  A disallowed state raises StateError. -/
def approveOp (r : ReviewStatus) : Except AppError ReviewStatus :=
  match r with
  | ReviewStatus.pending => Except.ok ReviewStatus.approved
  | ReviewStatus.reworkCompleted => Except.ok ReviewStatus.approved
  | ReviewStatus.approved => Except.error AppError.stateFailed
  | ReviewStatus.reworkRequested => Except.error AppError.stateFailed

/-- The record state after one approve call: a rejected transition leaves
the stored state untouched (the error is surfaced, nothing is written). -/
def approveStep (r : ReviewStatus) : ReviewStatus :=
  match approveOp r with
  | Except.ok r2 => r2
  | Except.error _ => r

/-- The record state after a sequence of n approve calls. -/
def approveTrace (r : ReviewStatus) : Nat → ReviewStatus
| 0 => r
| n + 1 => approveTrace (approveStep r) n

/- ── Admin dashboard (src/unnamed/part_003) ── -/

/-- One cell of the admin review table: an annotation id with its review
status (null encoded as none). -/
structure ReviewCell where
  annotation_id : Nat
  review_status : Option ReviewStatus
deriving DecidableEq, Repr

/-- `row.annotations[String(cat.id)]`: lookup of the cell of a category in
a review row. -/
def lookupCell (cells : List (Nat × ReviewCell)) (catId : Nat) : Option ReviewCell :=
  (cells.find? (fun p => p.1 == catId)).map (fun p => p.2)

/-- `pendingAnnotations` of the review modal (part_003 lines 1049-1055):
the cells of the row whose review_status is not approved, in category
order. -/
def pendingAnns (catIds : List Nat) (cells : List (Nat × ReviewCell)) : List ReviewCell :=
  catIds.filterMap (fun catId =>
    match lookupCell cells catId with
    | some cell =>
        if cell.review_status ≠ some ReviewStatus.approved then some cell else none
    | none => none)

/-- One row of the admin review table. -/
structure RowT where
  image_id : Nat
  cells : List (Nat × ReviewCell)
deriving DecidableEq, Repr

/-- The per-row part of `handleBulkApprove` (part_003 lines 1464-1469):
an approve request is pushed for every cell whose review_status is null. -/
def rowRequests (catIds : List Nat) (row : RowT) : List Nat :=
  catIds.filterMap (fun catId =>
    match lookupCell row.cells catId with
    | some cell =>
        if cell.review_status = none then some cell.annotation_id else none
    | none => none)

/-- The approve requests issued by `handleBulkApprove` (part_003 lines
1456-1471): for every selected row found in the table, one request per
pending cell.  The whole list is built before any response is awaited, so
it does not depend on per-request outcomes. -/
def bulkApproveRequests (catIds : List Nat) (images : List RowT)
    (selected : List Nat) : List Nat :=
  selected.flatMap (fun imgId =>
    match images.find? (fun r2 => r2.image_id == imgId) with
    | none => []
    | some row => rowRequests catIds row)

/-- The observable outcome of `handleBulkApprove`. -/
inductive BulkOutcome
| refreshed
| alertMsg (msg : String)
deriving DecidableEq, Repr

/-- `handleBulkApprove` awaits Promise.all over the issued requests
(part_003 lines 1471-1475): if every request succeeds the selection is
cleared and the table refreshed, otherwise a single aggregate alert is
shown.  `ok` gives the success of each request by annotation id. -/
def handleBulkApproveOutcome (catIds : List Nat) (images : List RowT)
    (selected : List Nat) (ok : Nat → Bool) : BulkOutcome :=
  if (bulkApproveRequests catIds images selected).all ok then BulkOutcome.refreshed
  else BulkOutcome.alertMsg "Some approvals failed"

/- ── Image-scoped editor (ImageAnnotationPage.jsx) ── -/

/-- `selectOption` in CategoryDropdown (ImageAnnotationPage.jsx lines 24-31):
clicking the currently selected option deselects it, otherwise the clicked
option becomes the single selection. -/
def selectOptionNew (selected : Option Nat) (optionId : Nat) : Option Nat :=
  if selected = some optionId then none else some optionId

/-- The `selected_option_ids` array handed to `onChange`:
`newSelected ? [newSelected] : []`.  JavaScript truthiness makes the number
0 falsy, which the embedding keeps faithfully. -/
def emittedIds : Option Nat → List Nat
| none => []
| some id => if id == 0 then [] else [id]

/-- One category as delivered to ImageAnnotationPage: id, display name,
whether another annotator holds the completed authoritative record, and
the annotator's own annotation record if any. -/
structure CatView where
  id : Nat
  name : String
  completed_by_other : Bool
  ann : Option AnnRecord
deriving DecidableEq, Repr

/-- `pendingChanges[catId]`: the selected option ids staged for a
category, if the category has an entry in the pending-changes map. -/
def pendingFor (pc : List (Nat × List Nat)) (catId : Nat) : Option (List Nat) :=
  (pc.find? (fun p => p.1 == catId)).map (fun p => p.2)

/-- `validateAllCategoriesSelected` (ImageAnnotationPage.jsx lines 398-413):
the names of the categories that are missing a selection.  A category that
is completed by another annotator and has no staged change is skipped;
otherwise a category with no staged entry or an empty staged selection is
missing. -/
def missingCats (cats : List CatView) (pc : List (Nat × List Nat)) : List String :=
  cats.filterMap (fun cat =>
    if cat.completed_by_other && (pendingFor pc cat.id).isNone then none
    else
      match pendingFor pc cat.id with
      | none => some cat.name
      | some sel => if sel.isEmpty then some cat.name else none)

/-- A category that participates in validation: not exempted by the
completed-by-other skip. -/
def requiredCat (pc : List (Nat × List Nat)) (cat : CatView) : Bool :=
  !(cat.completed_by_other && (pendingFor pc cat.id).isNone)

/-- A category without any staged selected option. -/
def lacksSelection (pc : List (Nat × List Nat)) (cat : CatView) : Bool :=
  match pendingFor pc cat.id with
  | none => true
  | some sel => sel.isEmpty

/-- The observable outcome of `handleSave` in ImageAnnotationPage. -/
inductive SaveOutcome
| noop
| invalidMsg (missing : List String)
| putAll (pc : List (Nat × List Nat)) (elapsed : Nat)
deriving DecidableEq, Repr

/-- `handleSave` (ImageAnnotationPage.jsx lines 415-438): bail out while
saving, not editable or improper; fail validation naming the missing
categories with no write; otherwise PUT all staged changes together with
the elapsed seconds. -/
def handleSaveOutcome (saving canEdit isImproper : Bool) (cats : List CatView)
    (pc : List (Nat × List Nat)) (elapsed : Nat) : SaveOutcome :=
  if saving || !canEdit || isImproper then SaveOutcome.noop
  else if !(missingCats cats pc).isEmpty then SaveOutcome.invalidMsg (missingCats cats pc)
  else SaveOutcome.putAll pc elapsed

/-- Erase the recorded time field of a save outcome, for comparing two
runs that differ only in elapsed seconds. -/
def eraseTime : SaveOutcome → SaveOutcome
| SaveOutcome.putAll pc _ => SaveOutcome.putAll pc 0
| o => o

/-- Whether the outcome performs a write. -/
def isWrite : SaveOutcome → Bool
| SaveOutcome.putAll _ _ => true
| _ => false

/-- Erase the recorded time field of an annotate request body. -/
def eraseReqTime (w : SaveReq) : SaveReq :=
  { w with time_spent_seconds := 0 }

/-- The contribution of one category to the resumed timer: the stored
time of its annotation record, 0 when there is none. -/
def catTime (cat : CatView) : Nat :=
  match cat.ann with
  | some a => a.time_spent_seconds
  | none => 0

/-- One loop iteration of the maxSavedTime scan in `loadImage`
(ImageAnnotationPage.jsx lines 348-358): a category with an annotation
record raises the running maximum when its stored time exceeds it. -/
def maxStep (acc : Nat) (cat : CatView) : Nat :=
  match cat.ann with
  | some a => if a.time_spent_seconds > acc then a.time_spent_seconds else acc
  | none => acc

/-- `maxSavedTime` in `loadImage` (ImageAnnotationPage.jsx lines 346-358,
377): the running maximum of time_spent_seconds over the categories that
have an annotation record, starting from 0; the session timer is resumed
from this value. -/
def maxSavedTime (cats : List CatView) : Nat :=
  cats.foldl maxStep 0

/- ── Task queue resolver (modelled from the spec) ── -/

/-- Modelled from the spec: the resume-index endpoint is backend code
absent from src.  Section 4.2: the index of the first image in the ordered
queue whose authoritative annotation is not completed; if every image is
completed the queue size is returned as a sentinel meaning done.  A queue
entry is the status of the authoritative record of that image, none when
no record exists. -/
def resumeIndex : List (Option AnnStatus) → Nat
| [] => 0
| st :: rest => if st = some AnnStatus.completed then resumeIndex rest + 1 else 0

/-- Modelled from the spec: the task endpoint is backend code absent from
src.  Section 4.2: NotFoundError when the index is out of range, the
queue entry otherwise. -/
def taskAt (queue : List (Option AnnStatus)) (i : Nat) :
    Except AppError (Option AnnStatus) :=
  match queue[i]? with
  | some t => Except.ok t
  | none => Except.error AppError.notFound

/- ── Time tracker (modelled from the spec) ── -/

/-- The admin-configurable time caps (fetched by the frontend from the
settings endpoint, ImageAnnotationPage.jsx lines 295-306). -/
structure TimeConfig where
  max_annotation_time_seconds : Nat
  max_rework_time_seconds : Nat
deriving DecidableEq, Repr

/-- The cap that applies to the current mode: the rework cap when the
annotation is a rework, the annotation cap otherwise (spec section 4.6,
mirrored by `currentMaxTime` in ImageAnnotationPage.jsx line 238). -/
def capForMode (cfg : TimeConfig) (isRework : Bool) : Nat :=
  if isRework then cfg.max_rework_time_seconds else cfg.max_annotation_time_seconds

/-- Modelled from the spec: the time PATCH endpoint storage rule is
backend code absent from src.  Section 4.6: the stored value becomes
max(stored, min(raw, capForMode)), which is monotone and capped. -/
def recordElapsed (cfg : TimeConfig) (isRework : Bool) (stored raw : Nat) : Nat :=
  max stored (min raw (capForMode cfg isRework))

/-- The stored value after a sequence of raw telemetry reports, starting
from the initial 0. -/
def recordTrace (cfg : TimeConfig) (isRework : Bool) (raws : List Nat) : Nat :=
  raws.foldl (recordElapsed cfg isRework) 0

/- ── Sample data for concrete evaluations ── -/

/-- A pending review cell used in concrete bulk-approve runs. -/
def bulkCellA : ReviewCell := { annotation_id := 101, review_status := none }

/-- A second pending review cell used in concrete bulk-approve runs. -/
def bulkCellB : ReviewCell := { annotation_id := 102, review_status := none }

/-- A review row holding the two pending cells. -/
def bulkRow : RowT := { image_id := 10, cells := [(1, bulkCellA), (2, bulkCellB)] }

/-- A sample category with a stored time of 5 seconds. -/
def catLighting : CatView :=
  { id := 1, name := "Lighting", completed_by_other := false,
    ann := some { selected_option_ids := [3], is_duplicate := none,
                  status := AnnStatus.completed, time_spent_seconds := 5 } }

/-- A sample category with a stored time of 9 seconds. -/
def catBackground : CatView :=
  { id := 2, name := "Background", completed_by_other := false,
    ann := some { selected_option_ids := [4], is_duplicate := some false,
                  status := AnnStatus.completed, time_spent_seconds := 9 } }

/-- A sample category with no annotation record. -/
def catPose : CatView :=
  { id := 3, name := "Pose", completed_by_other := false, ann := none }

/- ── Helper lemmas ── -/

theorem maxStep_eq_max (acc : Nat) (cat : CatView) :
    maxStep acc cat = max acc (catTime cat) := by
  cases h : cat.ann with
  | none => simp [maxStep, catTime, h]
  | some a =>
      simp only [maxStep, catTime, h]
      split <;> omega

theorem foldl_maxStep_ge_init (cats : List CatView) :
    ∀ acc : Nat, acc ≤ cats.foldl maxStep acc := by
  induction cats with
  | nil => intro acc; simp
  | cons c t ih =>
      intro acc
      have h1 : acc ≤ maxStep acc c := by rw [maxStep_eq_max]; exact Nat.le_max_left _ _
      exact Nat.le_trans h1 (ih (maxStep acc c))

theorem foldl_maxStep_ge_mem (cats : List CatView) :
    ∀ acc : Nat, ∀ cat ∈ cats, catTime cat ≤ cats.foldl maxStep acc := by
  induction cats with
  | nil => intro acc cat h; simp at h
  | cons c t ih =>
      intro acc cat h
      rcases List.mem_cons.mp h with rfl | h2
      · have h1 : catTime cat ≤ maxStep acc cat := by
          rw [maxStep_eq_max]; exact Nat.le_max_right _ _
        exact Nat.le_trans h1 (foldl_maxStep_ge_init t (maxStep acc cat))
      · exact ih (maxStep acc c) cat h2

theorem foldl_maxStep_all_none (cats : List CatView)
    (h : ∀ cat ∈ cats, cat.ann = none) : ∀ acc : Nat, cats.foldl maxStep acc = acc := by
  induction cats with
  | nil => intro acc; rfl
  | cons c t ih =>
      intro acc
      have hc : c.ann = none := h c (List.mem_cons_self c t)
      have hstep : maxStep acc c = acc := by simp [maxStep, hc]
      rw [List.foldl_cons, hstep]
      exact ih (fun cat hm => h cat (List.mem_cons_of_mem c hm)) acc

theorem foldl_maxStep_filterMap (cats : List CatView) :
    ∀ acc : Nat,
      cats.foldl maxStep acc =
        (cats.filterMap (fun c => c.ann)).foldl
          (fun a r => max a r.time_spent_seconds) acc := by
  induction cats with
  | nil => intro acc; rfl
  | cons c t ih =>
      intro acc
      cases h : c.ann with
      | none =>
          have hstep : maxStep acc c = acc := by simp [maxStep, h]
          simp [List.filterMap_cons, h, hstep, ih]
      | some a =>
          have hstep : maxStep acc c = max acc a.time_spent_seconds := by
            rw [maxStep_eq_max]; simp [catTime, h]
          simp [List.filterMap_cons, h, hstep, ih]

theorem filterMap_guard {α β : Type} (p : α → Bool) (f : α → β) :
    ∀ l : List α,
      l.filterMap (fun a => if p a then some (f a) else none) = (l.filter p).map f := by
  intro l
  induction l with
  | nil => rfl
  | cons a t ih =>
      by_cases h : p a <;> simp [List.filterMap_cons, List.filter_cons, h, ih]

theorem missing_fun_eq (pc : List (Nat × List Nat)) (cat : CatView) :
    (if cat.completed_by_other && (pendingFor pc cat.id).isNone then none
     else
       match pendingFor pc cat.id with
       | none => some cat.name
       | some sel => if sel.isEmpty then some cat.name else none)
    = if requiredCat pc cat && lacksSelection pc cat then some cat.name else none := by
  unfold requiredCat lacksSelection
  cases h : pendingFor pc cat.id with
  | none => cases hcb : cat.completed_by_other <;> simp [h, hcb]
  | some sel =>
      cases hcb : cat.completed_by_other <;>
        by_cases hse : sel.isEmpty <;> simp [h, hcb, hse]

theorem missingCats_eq (cats : List CatView) (pc : List (Nat × List Nat)) :
    missingCats cats pc =
      (cats.filter (fun c => requiredCat pc c && lacksSelection pc c)).map
        (fun c => c.name) := by
  unfold missingCats
  have hfun :
      (fun cat : CatView =>
        if cat.completed_by_other && (pendingFor pc cat.id).isNone then none
        else
          match pendingFor pc cat.id with
          | none => some cat.name
          | some sel => if sel.isEmpty then some cat.name else none) =
      (fun cat : CatView =>
        if requiredCat pc cat && lacksSelection pc cat then some cat.name else none) :=
    funext (missing_fun_eq pc)
  rw [hfun, filterMap_guard]

theorem mem_rowRequests (catIds : List Nat) (row : RowT) (id : Nat) :
    id ∈ rowRequests catIds row ↔
      ∃ catId ∈ catIds, ∃ cell : ReviewCell,
        lookupCell row.cells catId = some cell ∧
        cell.review_status = none ∧ cell.annotation_id = id := by
  unfold rowRequests
  rw [List.mem_filterMap]
  constructor
  · rintro ⟨catId, hmem, heq⟩
    refine ⟨catId, hmem, ?_⟩
    revert heq
    cases hc : lookupCell row.cells catId with
    | none => intro heq; simp at heq
    | some cell =>
        intro heq
        by_cases hrs : cell.review_status = none
        · refine ⟨cell, rfl, hrs, ?_⟩
          simpa [hrs] using heq
        · simp [hrs] at heq
  · rintro ⟨catId, hmem, cell, hc, hrs, hid⟩
    refine ⟨catId, hmem, ?_⟩
    rw [hc]
    simp [hrs, hid]

theorem mem_bulkApproveRequests (catIds : List Nat) (images : List RowT)
    (selected : List Nat) (id : Nat) :
    id ∈ bulkApproveRequests catIds images selected ↔
      ∃ imgId ∈ selected, ∃ row : RowT,
        images.find? (fun r2 => r2.image_id == imgId) = some row ∧
        id ∈ rowRequests catIds row := by
  unfold bulkApproveRequests
  rw [List.mem_flatMap]
  constructor
  · rintro ⟨imgId, hmem, hin⟩
    revert hin
    cases hf : images.find? (fun r2 => r2.image_id == imgId) with
    | none => intro hin; simp at hin
    | some row => intro hin; exact ⟨imgId, hmem, row, hf, hin⟩
  · rintro ⟨imgId, hmem, row, hf, hin⟩
    refine ⟨imgId, hmem, ?_⟩
    rw [hf]
    exact hin

/- ── Claim theorems ── -/

/-- C10: when an image is loaded, the session timer is initialized to the
maximum time_spent_seconds over the existing category annotation records
of that image (0 when none exist), so the resumed elapsed time is never
below any stored per-category value. -/
theorem C10_loadImage_timer_resume :
    ∀ cats : List CatView,
      maxSavedTime cats =
        (cats.filterMap (fun c => c.ann)).foldl
          (fun a r => max a r.time_spent_seconds) 0 ∧
      (∀ cat ∈ cats, ∀ a : AnnRecord, cat.ann = some a →
        a.time_spent_seconds ≤ maxSavedTime cats) ∧
      ((∀ cat ∈ cats, cat.ann = none) → maxSavedTime cats = 0) := by
  intro cats
  refine ⟨foldl_maxStep_filterMap cats 0, ?_, ?_⟩
  · intro cat hm a ha
    have h1 := foldl_maxStep_ge_mem cats 0 cat hm
    have h2 : catTime cat = a.time_spent_seconds := by simp [catTime, ha]
    rw [h2] at h1
    exact h1
  · intro h
    exact foldl_maxStep_all_none cats h 0

/-- C10 witness: a concrete image with stored times 5 and 9 resumes at a
value that dominates both, and an image with no records resumes at 0. -/
theorem C10_loadImage_timer_resume_witness :
    (5 : Nat) ≤ maxSavedTime [catLighting, catBackground] ∧
    maxSavedTime [catPose] = 0 := by
  constructor
  · exact (C10_loadImage_timer_resume [catLighting, catBackground]).2.1
      catLighting (List.mem_cons_self _ _) _ rfl
  · exact (C10_loadImage_timer_resume [catPose]).2.2 (by decide)

/-- C9: in the category-scoped page, toggleOption removes the option id
when present and appends it otherwise; on a duplicate-free selection,
toggling the same id twice returns the original selection (as the
order-irrelevant set the data model prescribes), and the selection stays
duplicate-free. -/
theorem C9_toggleOption_involution :
    ∀ (l : List Nat) (x : Nat),
      (x ∈ l → toggleOption l x = l.filter (fun id => id != x)) ∧
      (x ∉ l → toggleOption l x = l ++ [x]) ∧
      (l.Nodup → (toggleOption (toggleOption l x) x).Perm l) ∧
      (l.Nodup → (toggleOption l x).Nodup) := by
  intro l x
  refine ⟨?_, ?_, ?_, ?_⟩
  · intro h; simp [toggleOption, List.elem_iff, h]
  · intro h; simp [toggleOption, List.elem_iff, h]
  · intro hd
    by_cases h : x ∈ l
    · have h1 : toggleOption l x = l.filter (fun id => id != x) := by
        simp [toggleOption, List.elem_iff, h]
      have hx : x ∉ l.filter (fun id => id != x) := by simp [List.mem_filter]
      have h2 : toggleOption (toggleOption l x) x = l.filter (fun id => id != x) ++ [x] := by
        rw [h1]; simp [toggleOption, List.elem_iff, hx]
      rw [h2]
      have hef : l.filter (fun id => id != x) = l.erase x := by
        rw [hd.erase_eq_filter]
      rw [hef]
      exact (List.perm_append_singleton x (l.erase x)).trans (List.perm_cons_erase h).symm
    · have h1 : toggleOption l x = l ++ [x] := by simp [toggleOption, List.elem_iff, h]
      have hx2 : x ∈ l ++ [x] := by simp
      have h2 : toggleOption (l ++ [x]) x = (l ++ [x]).filter (fun id => id != x) := by
        simp [toggleOption, List.elem_iff, hx2]
      rw [h1, h2, List.filter_append]
      have hl : l.filter (fun id => id != x) = l := by
        rw [List.filter_eq_self]
        intro a ha
        simp only [bne_iff_ne, ne_eq]
        rintro rfl; exact h ha
      simp [hl]
  · intro hd
    unfold toggleOption
    split
    · exact hd.filter _
    · next hc =>
        rw [List.nodup_append]
        refine ⟨hd, List.nodup_singleton x, ?_⟩
        intro a ha
        simp only [List.mem_singleton]
        rintro rfl
        exact absurd (List.elem_iff.mpr ha) (by simpa using hc)

/-- C9 witness: toggling option 1 on the duplicate-free selection [1, 2]
removes it, toggling it again restores the selection as a set, and
duplicate-freedom is preserved. -/
theorem C9_toggleOption_involution_witness :
    toggleOption [1, 2] 1 = [2] ∧
    (toggleOption (toggleOption [1, 2] 1) 1).Perm [1, 2] ∧
    (toggleOption [1, 2] 1).Nodup := by
  refine ⟨?_, ?_, ?_⟩
  · have h := (C9_toggleOption_involution [1, 2] 1).1 (by decide)
    rw [h]; decide
  · exact (C9_toggleOption_involution [1, 2] 1).2.2.1 (by decide)
  · exact (C9_toggleOption_involution [1, 2] 1).2.2.2 (by decide)

/-- C8: in the image-scoped editor, a selection change handed to the save
path always carries at most one option id; clicking the selected option
clears the selection, clicking a different (truthy) option replaces it. -/
theorem C8_selectOption_single_selection :
    ∀ (sel : Option Nat) (oid : Nat),
      (emittedIds (selectOptionNew sel oid)).length ≤ 1 ∧
      (sel = some oid → emittedIds (selectOptionNew sel oid) = []) ∧
      (sel ≠ some oid → oid ≠ 0 → emittedIds (selectOptionNew sel oid) = [oid]) := by
  intro sel oid
  refine ⟨?_, ?_, ?_⟩
  · by_cases h : sel = some oid
    · simp [selectOptionNew, emittedIds, h]
    · simp only [selectOptionNew, emittedIds, if_neg h]
      split <;> simp
  · intro h; simp [selectOptionNew, emittedIds, h]
  · intro h h0
    simp only [selectOptionNew, emittedIds, if_neg h]
    simp [h0]

/-- C8 witness: with option 5 selected, clicking 5 clears the selection
and clicking 7 replaces it; the emitted list never has more than one id. -/
theorem C8_selectOption_single_selection_witness :
    (emittedIds (selectOptionNew (some 5) 7)).length ≤ 1 ∧
    emittedIds (selectOptionNew (some 5) 5) = [] ∧
    emittedIds (selectOptionNew (some 5) 7) = [7] := by
  refine ⟨?_, ?_, ?_⟩
  · exact (C8_selectOption_single_selection (some 5) 7).1
  · exact (C8_selectOption_single_selection (some 5) 5).2.1 rfl
  · exact (C8_selectOption_single_selection (some 5) 7).2.2 (by decide) (by decide)

/-- C2: handleSkip never writes over a completed record: when the current
annotation is completed no annotate request is issued at all, so a read
after Skip shows the record with status and content unchanged; when the
record is not completed, Skip writes a skipped annotate request. -/
theorem C2_skip_preserves_completed :
    ∀ (task : TaskView) (sel : List Nat) (dup : Option Bool) (elapsed : Nat)
      (r : AnnRecord), task.current_ann = some r →
      (r.status = AnnStatus.completed →
        handleSkipWrites task sel dup elapsed = [] ∧
        applyWrites r (handleSkipWrites task sel dup elapsed) = r) ∧
      (r.status ≠ AnnStatus.completed →
        handleSkipWrites task sel dup elapsed =
          [saveAnnReq sel dup AnnStatus.skipped elapsed]) := by
  intro task sel dup elapsed r hr
  constructor
  · intro hc
    have hw : handleSkipWrites task sel dup elapsed = [] := by
      simp [handleSkipWrites, hr, hc]
    exact ⟨hw, by rw [hw]; rfl⟩
  · intro hc
    simp only [handleSkipWrites, hr, Option.map_some]
    rw [if_neg]
    simpa using hc

/-- C2 witness: skipping a task whose current annotation is completed
issues no write and leaves the concrete record untouched. -/
theorem C2_skip_preserves_completed_witness :
    handleSkipWrites
      { image_id := 4, total_images := 10,
        current_ann := some { selected_option_ids := [2], is_duplicate := some false,
                              status := AnnStatus.completed, time_spent_seconds := 30 } }
      [] none 45 = [] ∧
    applyWrites
      { selected_option_ids := [2], is_duplicate := some false,
        status := AnnStatus.completed, time_spent_seconds := 30 }
      (handleSkipWrites
        { image_id := 4, total_images := 10,
          current_ann := some { selected_option_ids := [2], is_duplicate := some false,
                                status := AnnStatus.completed, time_spent_seconds := 30 } }
        [] none 45) =
      { selected_option_ids := [2], is_duplicate := some false,
        status := AnnStatus.completed, time_spent_seconds := 30 } :=
  (C2_skip_preserves_completed _ [] none 45 _ rfl).1 rfl

/-- C6: the stored telemetry value after RecordElapsed equals
max(stored, min(raw, capForMode)); it never decreases, and starting from
the initial 0 it never exceeds the cap of the mode. -/
theorem C6_record_elapsed_cap_monotone :
    ∀ (cfg : TimeConfig) (isRework : Bool) (stored raw : Nat),
      recordElapsed cfg isRework stored raw =
        max stored (min raw (capForMode cfg isRework)) ∧
      stored ≤ recordElapsed cfg isRework stored raw ∧
      (stored ≤ capForMode cfg isRework →
        recordElapsed cfg isRework stored raw ≤ capForMode cfg isRework) ∧
      (∀ raws : List Nat, recordTrace cfg isRework raws ≤ capForMode cfg isRework) := by
  intro cfg isRework stored raw
  refine ⟨rfl, Nat.le_max_left _ _, ?_, ?_⟩
  · intro h
    exact Nat.max_le.mpr ⟨h, Nat.min_le_right _ _⟩
  · intro raws
    have haux : ∀ (l : List Nat) (s : Nat), s ≤ capForMode cfg isRework →
        l.foldl (recordElapsed cfg isRework) s ≤ capForMode cfg isRework := by
      intro l
      induction l with
      | nil => intro s hs; simpa using hs
      | cons a t ih =>
          intro s hs
          exact ih _ (Nat.max_le.mpr ⟨hs, Nat.min_le_right _ _⟩)
    exact haux raws 0 (Nat.zero_le _)

/-- C6 witness: with caps 120/180, a rework record stored at 100 and a raw
report of 500 stores 180 = max(100, min(500, 180)), staying at the cap. -/
theorem C6_record_elapsed_cap_monotone_witness :
    recordElapsed { max_annotation_time_seconds := 120, max_rework_time_seconds := 180 }
        true 100 500 =
      max 100 (min 500 (capForMode
        { max_annotation_time_seconds := 120, max_rework_time_seconds := 180 } true)) ∧
    recordElapsed { max_annotation_time_seconds := 120, max_rework_time_seconds := 180 }
        true 100 500 ≤
      capForMode { max_annotation_time_seconds := 120, max_rework_time_seconds := 180 }
        true ∧
    recordTrace { max_annotation_time_seconds := 120, max_rework_time_seconds := 180 }
        true [40, 500, 10] ≤
      capForMode { max_annotation_time_seconds := 120, max_rework_time_seconds := 180 }
        true := by
  refine ⟨?_, ?_, ?_⟩
  · exact (C6_record_elapsed_cap_monotone _ true 100 500).1
  · exact (C6_record_elapsed_cap_monotone _ true 100 500).2.2.1 (by decide)
  · exact (C6_record_elapsed_cap_monotone _ true 0 0).2.2.2 [40, 500, 10]

/-- C7: elapsed-time telemetry never gates submission: two handleSave runs
that differ only in elapsedSeconds make the same decision and produce the
same outcome apart from the recorded time field, and the annotate request
of the category page differs only in its time field.  The time-warning
banner is not an input of the save path at all. -/
theorem C7_time_never_gates_submission :
    ∀ (saving canEdit isImproper : Bool) (cats : List CatView)
      (pc : List (Nat × List Nat)) (e1 e2 : Nat),
      eraseTime (handleSaveOutcome saving canEdit isImproper cats pc e1) =
        eraseTime (handleSaveOutcome saving canEdit isImproper cats pc e2) ∧
      isWrite (handleSaveOutcome saving canEdit isImproper cats pc e1) =
        isWrite (handleSaveOutcome saving canEdit isImproper cats pc e2) ∧
      (∀ (sel : List Nat) (dup : Option Bool) (st : AnnStatus),
        eraseReqTime (saveAnnReq sel dup st e1) = eraseReqTime (saveAnnReq sel dup st e2)) := by
  intro saving canEdit isImproper cats pc e1 e2
  refine ⟨?_, ?_, ?_⟩
  · unfold handleSaveOutcome
    split_ifs <;> rfl
  · unfold handleSaveOutcome
    split_ifs <;> rfl
  · intro sel dup st
    rfl

/-- C4: handleSave requires a selected option for every category that is
not exempted (completed by another annotator with no staged change); the
validation error names exactly the categories missing a selection, no
write occurs on failure, and the save proceeds when nothing is missing.
The category-scoped page additionally disables Save and Next while no
option is selected. -/
theorem C4_submit_validation_names_missing :
    ∀ (cats : List CatView) (pc : List (Nat × List Nat)) (elapsed : Nat),
      missingCats cats pc =
        (cats.filter (fun c => requiredCat pc c && lacksSelection pc c)).map
          (fun c => c.name) ∧
      (missingCats cats pc ≠ [] →
        handleSaveOutcome false true false cats pc elapsed =
          SaveOutcome.invalidMsg (missingCats cats pc) ∧
        ∀ (pc2 : List (Nat × List Nat)) (e2 : Nat),
          handleSaveOutcome false true false cats pc elapsed ≠
            SaveOutcome.putAll pc2 e2) ∧
      (missingCats cats pc = [] →
        handleSaveOutcome false true false cats pc elapsed =
          SaveOutcome.putAll pc elapsed) ∧
      saveNextDisabled false [] = true := by
  intro cats pc elapsed
  refine ⟨missingCats_eq cats pc, ?_, ?_, rfl⟩
  · intro h
    have hout : handleSaveOutcome false true false cats pc elapsed =
        SaveOutcome.invalidMsg (missingCats cats pc) := by
      unfold handleSaveOutcome
      have hne : (missingCats cats pc).isEmpty = false := by
        cases hmc : missingCats cats pc with
        | nil => exact absurd hmc h
        | cons a t => rfl
      simp [hne]
    exact ⟨hout, fun pc2 e2 hput => by rw [hout] at hput; cases hput⟩
  · intro h
    unfold handleSaveOutcome
    simp [h]

/-- C4 witness: a category with no staged selection fails validation with
an error naming exactly that category and no write; staging a selection
for it makes the same save write all staged changes. -/
theorem C4_submit_validation_names_missing_witness :
    handleSaveOutcome false true false [catPose] [] 12 =
      SaveOutcome.invalidMsg ["Pose"] ∧
    handleSaveOutcome false true false [catPose] [(3, [7])] 12 =
      SaveOutcome.putAll [(3, [7])] 12 := by
  constructor
  · have h :=
      ((C4_submit_validation_names_missing [catPose] [] 12).2.1 (by decide)).1
    rw [h]; rfl
  · exact (C4_submit_validation_names_missing [catPose] [(3, [7])] 12).2.2.1
      (by decide)

/-- C5: an exhausted category queue is signalled by the resume index
equalling the queue size (a plain value, not an error), while an
out-of-range task index yields NotFoundError; the client maps the
exhaustion detail of a 404 to the all-done screen instead of an error. -/
theorem C5_exhaustion_vs_not_found :
    (∀ queue : List (Option AnnStatus),
      (∀ st ∈ queue, st = some AnnStatus.completed) →
        resumeIndex queue = queue.length) ∧
    (∀ queue : List (Option AnnStatus), resumeIndex queue ≤ queue.length) ∧
    (∀ (queue : List (Option AnnStatus)) (i : Nat), queue.length ≤ i →
      taskAt queue i = Except.error AppError.notFound) ∧
    (∀ (queue : List (Option AnnStatus)) (i : Nat), i < queue.length →
      ∃ t, taskAt queue i = Except.ok t) ∧
    (∀ detail : String, jsIncludes detail "all completed" = true →
      loadTaskResult 404 detail = LoadResult.allDone) ∧
    (∀ msg : String, LoadResult.allDone ≠ LoadResult.errorShown msg) := by
  refine ⟨?_, ?_, ?_, ?_, ?_, ?_⟩
  · intro queue
    induction queue with
    | nil => intro _; rfl
    | cons st rest ih =>
        intro h
        have hst : st = some AnnStatus.completed := h st (List.mem_cons_self _ _)
        have hrest := ih (fun s hs => h s (List.mem_cons_of_mem _ hs))
        simp [resumeIndex, hst, hrest]
  · intro queue
    induction queue with
    | nil => exact Nat.le_refl 0
    | cons st rest ih =>
        by_cases hst : st = some AnnStatus.completed
        · simp only [resumeIndex, if_pos hst, List.length_cons]
          omega
        · simp only [resumeIndex, if_neg hst, List.length_cons]
          omega
  · intro queue i h
    unfold taskAt
    rw [List.getElem?_eq_none h]
  · intro queue i h
    refine ⟨queue[i], ?_⟩
    unfold taskAt
    rw [List.getElem?_eq_getElem h]
  · intro detail h
    unfold loadTaskResult
    simp [h]
  · intro msg h
    cases h

/-- C5 witness: a fully completed two-image queue has resume index 2 (its
size), index 2 is out of range and yields NotFoundError, and a 404 whose
detail mentions all completed is rendered as the all-done screen. -/
theorem C5_exhaustion_vs_not_found_witness :
    resumeIndex [some AnnStatus.completed, some AnnStatus.completed] = 2 ∧
    taskAt [some AnnStatus.completed, some AnnStatus.completed] 2 =
      Except.error AppError.notFound ∧
    loadTaskResult 404 "Images in this category are all completed" =
      LoadResult.allDone := by
  refine ⟨?_, ?_, ?_⟩
  · have h := C5_exhaustion_vs_not_found.1
      [some AnnStatus.completed, some AnnStatus.completed] (by decide)
    rw [h]; rfl
  · exact C5_exhaustion_vs_not_found.2.2.1
      [some AnnStatus.completed, some AnnStatus.completed] 2 (by decide)
  · exact C5_exhaustion_vs_not_found.2.2.2.2.1
      "Images in this category are all completed" (by decide)

/-- C1: Approve succeeds exactly when review_status is pending (null) or
rework_completed; on an already approved record it raises StateError and
leaves the state unchanged, so no sequence of approve calls re-approves an
approved record without an error.  The admin UI respects the same guard:
the approve-all list excludes approved cells and every bulk-approve
request comes from a cell with null review_status. -/
theorem C1_approve_no_silent_reapproval :
    (∀ r : ReviewStatus,
      approveOp r = Except.ok ReviewStatus.approved ↔
        (r = ReviewStatus.pending ∨ r = ReviewStatus.reworkCompleted)) ∧
    approveOp ReviewStatus.approved = Except.error AppError.stateFailed ∧
    (∀ n : Nat, approveTrace ReviewStatus.approved n = ReviewStatus.approved) ∧
    (∀ (catIds : List Nat) (cells : List (Nat × ReviewCell)),
      ∀ cell ∈ pendingAnns catIds cells,
        cell.review_status ≠ some ReviewStatus.approved) ∧
    (∀ (catIds : List Nat) (images : List RowT) (selected : List Nat) (id : Nat),
      id ∈ bulkApproveRequests catIds images selected →
      ∃ imgId ∈ selected, ∃ row : RowT,
        images.find? (fun r2 => r2.image_id == imgId) = some row ∧
        ∃ catId ∈ catIds, ∃ cell : ReviewCell,
          lookupCell row.cells catId = some cell ∧
          cell.review_status = none ∧ cell.annotation_id = id) := by
  refine ⟨?_, rfl, ?_, ?_, ?_⟩
  · intro r
    cases r <;> simp [approveOp]
  · intro n
    induction n with
    | zero => rfl
    | succ n ih =>
        have hstep : approveStep ReviewStatus.approved = ReviewStatus.approved := rfl
        show approveTrace (approveStep ReviewStatus.approved) n = ReviewStatus.approved
        rw [hstep]
        exact ih
  · intro catIds cells cell h
    unfold pendingAnns at h
    rw [List.mem_filterMap] at h
    rcases h with ⟨catId, _, heq⟩
    revert heq
    cases hc : lookupCell cells catId with
    | none => intro heq; simp at heq
    | some c =>
        intro heq
        by_cases hrs : c.review_status ≠ some ReviewStatus.approved
        · have hce : c = cell := by simpa [hrs] using heq
          rw [← hce]
          exact hrs
        · simp [if_neg hrs] at heq
  · intro catIds images selected id h
    rcases (mem_bulkApproveRequests catIds images selected id).mp h with
      ⟨imgId, hmem, row, hf, hin⟩
    rcases (mem_rowRequests catIds row id).mp hin with
      ⟨catId, hcm, cell, hl, hrs, hid⟩
    exact ⟨imgId, hmem, row, hf, catId, hcm, cell, hl, hrs, hid⟩

/-- C1 witness: approving a pending record succeeds, five approve calls
starting from approved leave the state approved, the approve-all list of a
concrete row excludes approved cells, and the concrete bulk request 101
traces back to a cell with null review_status. -/
theorem C1_approve_no_silent_reapproval_witness :
    approveOp ReviewStatus.pending = Except.ok ReviewStatus.approved ∧
    approveTrace ReviewStatus.approved 5 = ReviewStatus.approved ∧
    ({ annotation_id := 7, review_status := some ReviewStatus.reworkRequested } :
        ReviewCell).review_status ≠ some ReviewStatus.approved ∧
    (∃ imgId ∈ [10], ∃ row : RowT,
      [bulkRow].find? (fun r2 => r2.image_id == imgId) = some row ∧
      ∃ catId ∈ [1, 2], ∃ cell : ReviewCell,
        lookupCell row.cells catId = some cell ∧
        cell.review_status = none ∧ cell.annotation_id = 101) := by
  refine ⟨?_, ?_, ?_, ?_⟩
  · exact (C1_approve_no_silent_reapproval.1 ReviewStatus.pending).mpr (Or.inl rfl)
  · exact C1_approve_no_silent_reapproval.2.2.1 5
  · exact C1_approve_no_silent_reapproval.2.2.2.1 [3]
      [(3, { annotation_id := 7, review_status := some ReviewStatus.reworkRequested })]
      { annotation_id := 7, review_status := some ReviewStatus.reworkRequested }
      (by decide)
  · exact C1_approve_no_silent_reapproval.2.2.2.2 [1, 2] [bulkRow] [10] 101 (by decide)

/-- C3 counterexample: with two pending annotations 101 and 102 selected,
a run where only 101 fails and a run where only 102 fails produce the
identical single aggregate alert, so the caller receives no per-id
result list distinguishing which id failed. -/
theorem C3_bulk_approve_counterexample :
    bulkApproveRequests [1, 2] [bulkRow] [10] = [101, 102] ∧
    handleBulkApproveOutcome [1, 2] [bulkRow] [10] (fun id => id != 101) =
      BulkOutcome.alertMsg "Some approvals failed" ∧
    handleBulkApproveOutcome [1, 2] [bulkRow] [10] (fun id => id != 102) =
      BulkOutcome.alertMsg "Some approvals failed" ∧
    handleBulkApproveOutcome [1, 2] [bulkRow] [10] (fun id => id != 101) =
      handleBulkApproveOutcome [1, 2] [bulkRow] [10] (fun id => id != 102) ∧
    ((101 : Nat) != 101) = false ∧ ((101 : Nat) != 102) = true :=
  ⟨rfl, rfl, rfl, rfl, rfl, rfl⟩

/-- C3 (amended): handleBulkApprove issues one approve request per pending
cell of every selected row, independently of other requests, but
reports any failure as the single aggregate alert "Some approvals failed"
rather than a per-id result list. -/
theorem C3_bulk_approve_aggregate_report :
    ∀ (catIds : List Nat) (images : List RowT) (selected : List Nat)
      (ok : Nat → Bool),
      (handleBulkApproveOutcome catIds images selected ok = BulkOutcome.refreshed ↔
        ∀ id ∈ bulkApproveRequests catIds images selected, ok id = true) ∧
      (handleBulkApproveOutcome catIds images selected ok =
          BulkOutcome.alertMsg "Some approvals failed" ↔
        ∃ id ∈ bulkApproveRequests catIds images selected, ok id = false) ∧
      (∀ imgId ∈ selected, ∀ row : RowT,
        images.find? (fun r2 => r2.image_id == imgId) = some row →
        ∀ catId ∈ catIds, ∀ cell : ReviewCell,
          lookupCell row.cells catId = some cell → cell.review_status = none →
          cell.annotation_id ∈ bulkApproveRequests catIds images selected) := by
  intro catIds images selected ok
  by_cases hb : (bulkApproveRequests catIds images selected).all ok = true
  · refine ⟨?_, ?_, ?_⟩
    · unfold handleBulkApproveOutcome
      rw [if_pos hb]
      exact ⟨fun _ => List.all_eq_true.mp hb, fun _ => rfl⟩
    · unfold handleBulkApproveOutcome
      rw [if_pos hb]
      constructor
      · intro h; cases h
      · rintro ⟨id, hid, hfalse⟩
        have := List.all_eq_true.mp hb id hid
        rw [this] at hfalse
        cases hfalse
    · intro imgId hm row hf catId hcm cell hl hrs
      exact (mem_bulkApproveRequests catIds images selected cell.annotation_id).mpr
        ⟨imgId, hm, row, hf,
          (mem_rowRequests catIds row cell.annotation_id).mpr
            ⟨catId, hcm, cell, hl, hrs, rfl⟩⟩
  · refine ⟨?_, ?_, ?_⟩
    · unfold handleBulkApproveOutcome
      rw [if_neg hb]
      constructor
      · intro h; cases h
      · intro hall
        exact absurd (List.all_eq_true.mpr hall) hb
    · unfold handleBulkApproveOutcome
      rw [if_neg hb]
      constructor
      · intro _
        have hnall : ¬ ∀ id ∈ bulkApproveRequests catIds images selected,
            ok id = true := fun hall => hb (List.all_eq_true.mpr hall)
        push_neg at hnall
        rcases hnall with ⟨id, hid, hne⟩
        exact ⟨id, hid, by rwa [← Bool.not_eq_true (ok id)]⟩
      · intro _; rfl
    · intro imgId hm row hf catId hcm cell hl hrs
      exact (mem_bulkApproveRequests catIds images selected cell.annotation_id).mpr
        ⟨imgId, hm, row, hf,
          (mem_rowRequests catIds row cell.annotation_id).mpr
            ⟨catId, hcm, cell, hl, hrs, rfl⟩⟩

/-- C3 witness: when every request succeeds the concrete bulk approve
refreshes the table, and the pending cell 101 of the selected row is among
the issued requests. -/
theorem C3_bulk_approve_aggregate_report_witness :
    handleBulkApproveOutcome [1, 2] [bulkRow] [10] (fun _ => true) =
      BulkOutcome.refreshed ∧
    (101 : Nat) ∈ bulkApproveRequests [1, 2] [bulkRow] [10] := by
  constructor
  · exact ((C3_bulk_approve_aggregate_report [1, 2] [bulkRow] [10]
      (fun _ => true)).1).mpr (fun id _ => rfl)
  · exact (C3_bulk_approve_aggregate_report [1, 2] [bulkRow] [10]
      (fun _ => true)).2.2 10 (by decide) bulkRow (by decide) 1 (by decide)
      bulkCellA (by decide) rfl

end PhotosPet
